import Mathlib

/-!
Verification of the chopper fastq filtering program (src/main.rs).

The Rust source is shallowly embedded: the command line configuration and
fastq records become structures, the per record decision logic becomes
functions, and the two driver loops become list recursions.  Panics
(unwrap on a reader error, out of bounds indexing in the contamination
check) are modelled by Option, with none meaning that the process aborts.
-/

namespace Chopper

/-- The command line arguments of the program (struct Cli in main.rs).
The minimum quality is a real number, matching the f64 field; lengths,
crop counts and the thread count are natural numbers, matching the usize
fields; contam is the optional contamination fasta path. -/
structure Cli where
  minqual : ℝ
  minlength : ℕ
  maxlength : ℕ
  headcrop : ℕ
  tailcrop : ℕ
  threads : ℕ
  contam : Option String

/-- One fastq record as produced by the external reader
(bio::io::fastq::Record): identifier, optional description, sequence and
per base quality string.  Sequence and quality are lists of characters;
the quality characters are the raw bytes that main.rs hands to ave_qual. -/
structure Record where
  id : String
  desc : Option String
  seq : List Char
  qual : List Char

/-- Modelled from the external rust-bio library
(bio::io::fastq::Record::is_empty): a record is empty when all four of
its fields are empty. -/
def Record.isEmpty (r : Record) : Bool :=
  r.id == "" && r.desc == none && r.seq == [] && r.qual == []

/-- The Phred codes handed to ave_qual: main.rs passes the raw bytes of
record.qual() directly, so the codes are the character values of the
quality string. -/
def Record.codes (r : Record) : List ℕ :=
  r.qual.map Char.toNat

/-- fn ave_qual (main.rs lines 156 to 162): convert each Phred score q to
an error probability 10 ^ (q / -10), sum the probabilities, divide by the
number of scores and convert back to the Phred scale with log10 times
-10. -/
noncomputable def ave_qual (quals : List ℕ) : ℝ :=
  Real.logb 10
    ((quals.map (fun q : ℕ => (10 : ℝ) ^ ((q : ℝ) / (-10)))).sum / quals.length)
    * (-10)

/-- One alignment returned by the external minimap2 aligner; only the
field inspected by the program is modelled. -/
structure Mapping where
  target_name : Option String

/-- The behaviour of the external aligner built from a contamination
reference: a function from query sequences to the ordered list of
candidate alignments, possibly empty. -/
abbrev AlignerFun := List Char → List Mapping

/-- fn is_contamination (main.rs lines 174 to 179): map the read against
the index and inspect element 0 of the result vector.  Indexing an empty
vector panics, modelled by none; otherwise the answer is whether the
first alignment carries a target name. -/
def is_contamination (readseq : List Char) (contam : AlignerFun) : Option Bool :=
  match contam readseq with
  | [] => none
  | m :: _ => some m.target_name.isSome

/-- The slice v[a .. b] of a list, as used on sequence and quality with
a = headcrop and b = read_len - tailcrop. -/
def slice (l : List Char) (a b : ℕ) : List Char :=
  (l.drop a).take (b - a)

/-- The header of an emitted record (main.rs lines 82 to 85): identifier,
followed by the description when one is present. -/
def headerOf (r : Record) : String :=
  match r.desc with
  | some d => r.id ++ " " ++ d
  | none => r.id

/-- The four line output of one accepted record, as produced by the
println call (main.rs lines 88 to 99): at sign and header, trimmed
sequence, separator, trimmed quality. -/
def formatOutput (args : Cli) (r : Record) : String :=
  "@" ++ headerOf r ++ "\n"
    ++ String.mk (slice r.seq args.headcrop (r.seq.length - args.tailcrop))
    ++ "\n+\n"
    ++ String.mk (slice r.qual args.headcrop (r.seq.length - args.tailcrop))

/-- The outcome of evaluating one record: either the formatted four line
output, or nothing. -/
inductive Decision
  | drop
  | emit (out : String)
  deriving DecidableEq

open Classical in
/-- The per record decision of the unscreened branch of fn filter
(main.rs lines 115 to 147): skip empty records, skip records that do not
survive cropping, then test average quality, minimum length and maximum
length on the untrimmed record, and emit the trimmed record when all
three pass. -/
noncomputable def evaluateUnscreened (args : Cli) (r : Record) : Decision :=
  if r.isEmpty then .drop
  else if args.headcrop + args.tailcrop < r.seq.length then
    if ave_qual r.codes ≥ args.minqual
        ∧ r.seq.length ≥ args.minlength
        ∧ r.seq.length ≤ args.maxlength then
      .emit (formatOutput args r)
    else .drop
  else .drop

open Classical in
/-- The per record decision of the screened branch of fn filter
(main.rs lines 69 to 102): the same checks, with the contamination test
on the untrimmed sequence as the final conjunct.  The Rust conjunction
short circuits, so the aligner runs only when quality and length already
passed; a panic inside is_contamination propagates as none. -/
noncomputable def evaluateScreened (contam : AlignerFun) (args : Cli) (r : Record) :
    Option Decision :=
  if r.isEmpty then some .drop
  else if args.headcrop + args.tailcrop < r.seq.length then
    if ave_qual r.codes ≥ args.minqual
        ∧ r.seq.length ≥ args.minlength
        ∧ r.seq.length ≤ args.maxlength then
      match is_contamination r.seq contam with
      | none => none
      | some true => some .drop
      | some false => some (.emit (formatOutput args r))
    else some .drop
  else some .drop

/-- The screened driver loop (main.rs lines 66 to 103): a strictly
sequential for_each over the reader results; record.unwrap() panics on a
parse error, modelled by none, and a contamination panic also aborts. -/
noncomputable def runScreened (contam : AlignerFun) (args : Cli) :
    List (Except String Record) → Option (List String)
  | [] => some []
  | Except.error _ :: _ => none
  | Except.ok r :: rest =>
    match evaluateScreened contam args r with
    | none => none
    | some Decision.drop => runScreened contam args rest
    | some (Decision.emit out) => (runScreened contam args rest).map (fun l => out :: l)

/-- The unscreened driver loop (main.rs lines 106 to 148).  The real
program distributes records over a rayon pool and the output order is
nondeterministic; the model lists the accepted records in input order,
fixing one representative order.  The threads field only sizes the pool
and never reaches the per record logic. -/
noncomputable def runUnscreened (args : Cli) :
    List (Except String Record) → Option (List String)
  | [] => some []
  | Except.error _ :: _ => none
  | Except.ok r :: rest =>
    match evaluateUnscreened args r with
    | Decision.drop => runUnscreened args rest
    | Decision.emit out => (runUnscreened args rest).map (fun l => out :: l)

/-- fn filter (main.rs lines 62 to 151).  The index construction of
setup_contamination_filter is abstracted by alignerOf, mapping the fasta
path to the behaviour of the resulting aligner.  The screened branch
reads from the input argument; the unscreened branch reads from the
process standard input (main.rs line 111 opens io::stdin() and the input
argument is not consumed). -/
noncomputable def filter (alignerOf : String → AlignerFun)
    (input stdinStream : List (Except String Record)) (args : Cli) :
    Option (List String) :=
  match args.contam with
  | some fas => runScreened (alignerOf fas) args input
  | none => runUnscreened args stdinStream

/-- Configuration holding the default values of every Cli field. -/
noncomputable def defaultCli : Cli :=
  ⟨0, 1, 2147483647, 0, 0, 4, none⟩

/-- Configuration whose crop counts together reach the length of the one
base record below. -/
noncomputable def cliCrop : Cli :=
  ⟨0, 1, 100, 1, 0, 4, none⟩

/-- A one base record used in concrete checks. -/
def recA : Record :=
  ⟨"r", none, ['A'], ['I']⟩

/-- A two base record used in concrete checks. -/
def recB : Record :=
  ⟨"a", none, ['A', 'C'], ['I', 'I']⟩

/-- Unscreened configuration with one worker thread. -/
noncomputable def cliT1 : Cli :=
  ⟨0, 1, 100, 0, 0, 1, none⟩

/-- Unscreened configuration with eight worker threads, otherwise equal
to cliT1. -/
noncomputable def cliT8 : Cli :=
  ⟨0, 1, 100, 0, 0, 8, none⟩

/-- The guard standing in front of both ave_qual call sites of fn filter
(main.rs lines 71 to 75 and 117 to 121): the record passed the emptiness
check and the crop feasibility check. -/
abbrev reachesQuality (args : Cli) (r : Record) : Prop :=
  r.isEmpty = false ∧ args.headcrop + args.tailcrop < r.seq.length

/-- The record to output map induced by the screened evaluator: the
formatted output for an emitted record, nothing for a dropped one. -/
noncomputable def screenedEmit (contam : AlignerFun) (args : Cli) (r : Record) :
    Option String :=
  match evaluateScreened contam args r with
  | some (Decision.emit out) => some out
  | _ => none

/-- A 100 base record for the C5 length example. -/
def rec100 : Record :=
  ⟨"long", none, List.replicate 100 'A', List.replicate 100 'I'⟩

/-- Configuration of the C5 length example: crop ten from each end,
minimum length 85. -/
noncomputable def cli100 : Cli :=
  ⟨0, 85, 2147483647, 10, 10, 4, none⟩

/-- The record of testable property 6: identifier r1, no description,
sequence ACGTACGTAC, ten quality characters of Phred code Q30 in the
ASCII encoding (the question mark, byte 63). -/
def rec1 : Record :=
  ⟨"r1", none, ['A', 'C', 'G', 'T', 'A', 'C', 'G', 'T', 'A', 'C'],
    List.replicate 10 '?'⟩

/-- Configuration of testable property 6: minimum quality 0, minimum
length 5, maximum length 20, two bases cropped from each end, no
contamination reference. -/
noncomputable def cli10 : Cli :=
  ⟨0, 5, 20, 2, 2, 4, none⟩

/-- C1: at an aligner that returns no alignment for the query,
is_contamination indexes element 0 of an empty vector and panics
(modelled by none); it does not return false as the specification
requires. -/
theorem is_contamination_panics_on_empty_alignment :
    is_contamination ['A', 'C', 'G', 'T'] (fun _ => []) = none := rfl

/-- C2: with no contamination reference configured, filter reads the
records from the process standard input and its input stream argument
does not influence the output. -/
theorem filter_unscreened_ignores_input (alignerOf : String → AlignerFun)
    (args : Cli) (h : args.contam = none)
    (input₁ input₂ stdinStream : List (Except String Record)) :
    filter alignerOf input₁ stdinStream args
      = filter alignerOf input₂ stdinStream args := by
  simp [filter, h]

/-- Witness for C2 at a concrete configuration and concrete streams. -/
theorem filter_unscreened_ignores_input_witness :
    filter (fun _ _ => []) [Except.error "bad"] [] defaultCli
      = filter (fun _ _ => []) [] [] defaultCli :=
  filter_unscreened_ignores_input (fun _ _ => []) defaultCli rfl
    [Except.error "bad"] [] []

/-- C4: a record whose head crop plus tail crop reaches or exceeds its
sequence length is dropped in both modes, whatever the quality, length
and contamination configuration. -/
theorem crop_infeasible_drops (contam : AlignerFun) (args : Cli) (r : Record)
    (h : r.seq.length ≤ args.headcrop + args.tailcrop) :
    evaluateScreened contam args r = some Decision.drop
      ∧ evaluateUnscreened args r = Decision.drop := by
  have h' : ¬ args.headcrop + args.tailcrop < r.seq.length := by omega
  constructor
  · by_cases he : r.isEmpty <;> simp [evaluateScreened, he, h']
  · by_cases he : r.isEmpty <;> simp [evaluateUnscreened, he, h']

/-- Witness for C4: the one base record with a head crop of one. -/
theorem crop_infeasible_drops_witness :
    evaluateScreened (fun _ => []) cliCrop recA = some Decision.drop
      ∧ evaluateUnscreened cliCrop recA = Decision.drop :=
  crop_infeasible_drops (fun _ => []) cliCrop recA (by decide)

/-- C6: for a record respecting the reader invariant of equal sequence
and quality lengths, the guard in front of the ave_qual call sites forces
a quality slice of length at least one, so the division by the number of
scores inside ave_qual is never a division by zero. -/
theorem ave_qual_never_on_empty (args : Cli) (r : Record)
    (hinv : r.qual.length = r.seq.length) (h : reachesQuality args r) :
    1 ≤ r.codes.length ∧ (r.codes.length : ℝ) ≠ 0 := by
  obtain ⟨-, hcrop⟩ := h
  have hseq : 1 ≤ r.seq.length := by omega
  have hlen : 1 ≤ r.codes.length := by
    simpa [Record.codes, hinv] using hseq
  exact ⟨hlen, Nat.cast_ne_zero.mpr (by omega)⟩

/-- Witness for C6 at the two base record under the default
configuration. -/
theorem ave_qual_never_on_empty_witness :
    1 ≤ recB.codes.length ∧ (recB.codes.length : ℝ) ≠ 0 :=
  ave_qual_never_on_empty defaultCli recB (by decide) ⟨by decide, by decide⟩

/-- C8: an input stream containing a record the reader cannot parse
aborts the whole run in both modes; malformed records are never
skipped. -/
theorem parse_error_aborts (contam : AlignerFun) (args : Cli) (e : String)
    (input : List (Except String Record)) (h : Except.error e ∈ input) :
    runScreened contam args input = none ∧ runUnscreened args input = none := by
  induction input with
  | nil => cases h
  | cons x rest ih =>
    cases x with
    | error e' => exact ⟨rfl, rfl⟩
    | ok r =>
      have hrest : Except.error e ∈ rest := by
        rcases List.mem_cons.mp h with h1 | h2
        · simp at h1
        · exact h2
      obtain ⟨ihs, ihu⟩ := ih hrest
      constructor
      · rcases hev : evaluateScreened contam args r with - | d
        · simp [runScreened, hev]
        · cases d <;> simp [runScreened, hev, ihs]
      · rcases hev : evaluateUnscreened args r with - | out
        · simp [runUnscreened, hev, ihu]
        · simp [runUnscreened, hev, ihu]

/-- Witness for C8: a stream holding one unparsable record. -/
theorem parse_error_aborts_witness :
    runScreened (fun _ => []) defaultCli [Except.error "x"] = none
      ∧ runUnscreened defaultCli [Except.error "x"] = none :=
  parse_error_aborts (fun _ => []) defaultCli "x" [Except.error "x"] (by simp)

/-- C7: in screened mode the driver walks the records strictly
sequentially and, when no record aborts the run, the output is exactly
the order preserving filter and map of the input record sequence. -/
theorem screened_preserves_order (contam : AlignerFun) (args : Cli)
    (rs : List Record)
    (hok : ∀ r ∈ rs, evaluateScreened contam args r ≠ none) :
    runScreened contam args (rs.map Except.ok)
      = some (rs.filterMap (screenedEmit contam args)) := by
  induction rs with
  | nil => rfl
  | cons r rest ih =>
    have hr : evaluateScreened contam args r ≠ none := hok r (by simp)
    have hrest : ∀ x ∈ rest, evaluateScreened contam args x ≠ none :=
      fun x hx => hok x (by simp [hx])
    rcases hev : evaluateScreened contam args r with - | d
    · exact absurd hev hr
    · cases d with
      | drop =>
        simp [runScreened, List.filterMap_cons, screenedEmit, hev, ih hrest]
      | emit out =>
        simp [runScreened, List.filterMap_cons, screenedEmit, hev, ih hrest]

/-- Witness for C7: a one record stream whose record is dropped by the
crop check, under an aligner that would panic if it were consulted. -/
theorem screened_preserves_order_witness :
    runScreened (fun _ => []) cliCrop ([recA].map Except.ok)
      = some ([recA].filterMap (screenedEmit (fun _ => []) cliCrop)) :=
  screened_preserves_order (fun _ => []) cliCrop [recA] (by
    intro r hr
    rw [List.mem_singleton] at hr
    subst hr
    simp [evaluateScreened, recA, cliCrop, Record.isEmpty])

/-- C9: the unscreened run is a deterministic function of the record
stream and of the non thread configuration fields: two configurations
agreeing on quality, length and crop settings produce the same emitted
records whatever their thread counts. -/
theorem unscreened_thread_independent (args₁ args₂ : Cli)
    (hq : args₁.minqual = args₂.minqual)
    (hmin : args₁.minlength = args₂.minlength)
    (hmax : args₁.maxlength = args₂.maxlength)
    (hh : args₁.headcrop = args₂.headcrop)
    (ht : args₁.tailcrop = args₂.tailcrop)
    (input : List (Except String Record)) :
    runUnscreened args₁ input = runUnscreened args₂ input := by
  have hev : ∀ r, evaluateUnscreened args₁ r = evaluateUnscreened args₂ r := by
    intro r
    unfold evaluateUnscreened formatOutput
    rw [hq, hmin, hmax, hh, ht]
  induction input with
  | nil => rfl
  | cons x rest ih =>
    cases x with
    | error e => rfl
    | ok r => simp [runUnscreened, hev r, ih]

/-- Witness for C9: one and eight threads on a concrete stream. -/
theorem unscreened_thread_independent_witness :
    runUnscreened cliT1 [Except.ok recB] = runUnscreened cliT8 [Except.ok recB] :=
  unscreened_thread_independent cliT1 cliT8 rfl rfl rfl rfl rfl [Except.ok recB]

/-- The average quality of any non empty list of Phred scores is non
negative: every error probability lies in (0, 1], hence so does their
mean, whose log10 is therefore non positive. -/
lemma ave_qual_nonneg (quals : List ℕ) (h : quals ≠ []) : 0 ≤ ave_qual quals := by
  unfold ave_qual
  have hpos : ∀ x ∈ quals.map (fun q : ℕ => (10 : ℝ) ^ ((q : ℝ) / (-10))), 0 < x := by
    intro x hx
    obtain ⟨q, -, rfl⟩ := List.mem_map.mp hx
    exact Real.rpow_pos_of_pos (by norm_num) _
  have hone : ∀ x ∈ quals.map (fun q : ℕ => (10 : ℝ) ^ ((q : ℝ) / (-10))), x ≤ 1 := by
    intro x hx
    obtain ⟨q, -, rfl⟩ := List.mem_map.mp hx
    refine Real.rpow_le_one_of_one_le_of_nonpos (by norm_num) ?_
    exact div_nonpos_iff.mpr (Or.inl ⟨Nat.cast_nonneg q, by norm_num⟩)
  have hne : quals.map (fun q : ℕ => (10 : ℝ) ^ ((q : ℝ) / (-10))) ≠ [] := by
    intro hmap
    exact h (List.map_eq_nil_iff.mp hmap)
  have hsum_pos : 0 < (quals.map (fun q : ℕ => (10 : ℝ) ^ ((q : ℝ) / (-10)))).sum :=
    List.sum_pos _ hpos hne
  have hlen_pos : (0 : ℝ) < quals.length := by
    have : 0 < quals.length := List.length_pos.mpr h
    exact_mod_cast this
  have hsum_le :
      (quals.map (fun q : ℕ => (10 : ℝ) ^ ((q : ℝ) / (-10)))).sum ≤ quals.length := by
    have h1 := List.sum_le_card_nsmul
      (quals.map (fun q : ℕ => (10 : ℝ) ^ ((q : ℝ) / (-10)))) 1 hone
    rw [List.length_map, nsmul_eq_mul, mul_one] at h1
    exact h1
  have hlog : Real.logb 10
      ((quals.map (fun q : ℕ => (10 : ℝ) ^ ((q : ℝ) / (-10)))).sum / quals.length) ≤ 0 :=
    Real.logb_nonpos (by norm_num) (div_pos hsum_pos hlen_pos).le
      ((div_le_one hlen_pos).mpr hsum_le)
  linarith

/-- C5: both evaluators gate on the untrimmed record: a record is emitted
exactly when the average quality of the whole quality string and the
untrimmed sequence length pass the thresholds (plus, in screened mode,
the contamination test on the whole sequence); the trimmed span never
enters the checks.  In particular a record of length 100 under headcrop
10, tailcrop 10, minlength 85 passes the length check although the
emitted trimmed sequence has length 80, which would fail it. -/
theorem filters_use_untrimmed (args : Cli) (r : Record) :
    ((∃ out, evaluateUnscreened args r = Decision.emit out)
      ↔ r.isEmpty = false
        ∧ args.headcrop + args.tailcrop < r.seq.length
        ∧ ave_qual r.codes ≥ args.minqual
        ∧ r.seq.length ≥ args.minlength
        ∧ r.seq.length ≤ args.maxlength)
    ∧ (∀ contam : AlignerFun,
        (∃ out, evaluateScreened contam args r = some (Decision.emit out))
          ↔ r.isEmpty = false
            ∧ args.headcrop + args.tailcrop < r.seq.length
            ∧ (ave_qual r.codes ≥ args.minqual
                ∧ r.seq.length ≥ args.minlength
                ∧ r.seq.length ≤ args.maxlength)
            ∧ is_contamination r.seq contam = some false)
    ∧ (r.seq.length = 100 → args.headcrop = 10 → args.tailcrop = 10
        → args.minlength = 85
        → r.seq.length ≥ args.minlength
          ∧ (slice r.seq args.headcrop (r.seq.length - args.tailcrop)).length = 80
          ∧ ¬ (slice r.seq args.headcrop (r.seq.length - args.tailcrop)).length
              ≥ args.minlength) := by
  refine ⟨?_, ?_, ?_⟩
  · by_cases he : r.isEmpty
      <;> by_cases hcrop : args.headcrop + args.tailcrop < r.seq.length
      <;> by_cases hcond : ave_qual r.codes ≥ args.minqual
            ∧ r.seq.length ≥ args.minlength ∧ r.seq.length ≤ args.maxlength
      <;> simp [evaluateUnscreened, he, hcrop, hcond]
  · intro contam
    by_cases he : r.isEmpty
      <;> by_cases hcrop : args.headcrop + args.tailcrop < r.seq.length
      <;> by_cases hcond : ave_qual r.codes ≥ args.minqual
            ∧ r.seq.length ≥ args.minlength ∧ r.seq.length ≤ args.maxlength
      <;> rcases hic : is_contamination r.seq contam with - | b
      <;> (try cases b)
      <;> simp [evaluateScreened, he, hcrop, hcond, hic]
  · intro h100 hh ht hmin
    refine ⟨by omega, ?_, ?_⟩
    · simp [slice, h100, hh, ht]
    · simp [slice, h100, hh, ht, hmin]

/-- Witness for C5: the concrete 100 base record of the claim. -/
theorem filters_use_untrimmed_witness :
    rec100.seq.length ≥ cli100.minlength
      ∧ (slice rec100.seq cli100.headcrop
          (rec100.seq.length - cli100.tailcrop)).length = 80
      ∧ ¬ (slice rec100.seq cli100.headcrop
          (rec100.seq.length - cli100.tailcrop)).length ≥ cli100.minlength :=
  (filters_use_untrimmed cli100 rec100).2.2 (by simp [rec100]) rfl rfl rfl

/-- C10: on the record r1 the unscreened pipeline emits exactly the four
lines at r1, GTACGT, plus, and the six quality characters of positions
two to eight of the original quality string. -/
theorem end_to_end_r1 :
    runUnscreened cli10 [Except.ok rec1]
      = some ["@r1" ++ "\n" ++ "GTACGT" ++ "\n+\n" ++ "??????"]
    ∧ String.mk ((rec1.qual.drop 2).take 6) = "??????" := by
  have hq : ave_qual rec1.codes ≥ cli10.minqual := by
    have h0 : (0 : ℝ) ≤ ave_qual rec1.codes :=
      ave_qual_nonneg rec1.codes (by simp [rec1, Record.codes])
    simpa [cli10] using h0
  have hcond : ave_qual rec1.codes ≥ cli10.minqual
      ∧ rec1.seq.length ≥ cli10.minlength ∧ rec1.seq.length ≤ cli10.maxlength := by
    refine ⟨hq, by simp [rec1, cli10], by simp [rec1, cli10]⟩
  have hev : evaluateUnscreened cli10 rec1
      = Decision.emit (formatOutput cli10 rec1) := by
    rw [evaluateUnscreened]
    rw [if_neg (by simp [rec1, Record.isEmpty])]
    rw [if_pos (by simp [rec1, cli10])]
    rw [if_pos hcond]
  have hfmt : formatOutput cli10 rec1 = "@r1" ++ "\n" ++ "GTACGT" ++ "\n+\n" ++ "??????" := by
    decide
  constructor
  · simp [runUnscreened, hev, hfmt]
  · decide

/-- Taylor sandwich for the real exponential at arguments of size at most
0.63: sixteen terms of the series pin exp x to within 1e-16. -/
lemma exp_sandwich (x : ℝ) (hx : |x| ≤ 63 / 100) :
    Real.exp x ≤ (∑ m ∈ Finset.range 16, x ^ m / (Nat.factorial m : ℝ)) + 1 / 10 ^ 16
    ∧ (∑ m ∈ Finset.range 16, x ^ m / (Nat.factorial m : ℝ)) - 1 / 10 ^ 16
        ≤ Real.exp x := by
  have hx1 : |x| ≤ 1 := le_trans hx (by norm_num)
  have hb := Real.exp_bound hx1 (show 0 < 16 by norm_num)
  have hpow : |x| ^ 16 ≤ (63 / 100 : ℝ) ^ 16 := pow_le_pow_left₀ (abs_nonneg x) hx 16
  have hb' : |Real.exp x - ∑ m ∈ Finset.range 16, x ^ m / (Nat.factorial m : ℝ)|
      ≤ 1 / 10 ^ 16 := by
    refine hb.trans ?_
    have hfact : (Nat.factorial 16 : ℝ) = 20922789888000 := by norm_num [Nat.factorial]
    rw [hfact]
    push_cast
    have hmul : |x| ^ 16 * (17 / (20922789888000 * 16))
        ≤ (63 / 100 : ℝ) ^ 16 * (17 / (20922789888000 * 16)) :=
      mul_le_mul_of_nonneg_right hpow (by norm_num)
    have hconst : ((63 : ℝ) / 100) ^ 16 * (17 / (20922789888000 * 16)) ≤ 1 / 10 ^ 16 := by
      norm_num
    exact le_trans hmul hconst
  obtain ⟨h1, h2⟩ := abs_le.mp hb'
  constructor <;> linarith

/-- Two sided rational bounds on the natural logarithm of ten, to
fourteen decimal places. -/
lemma log_ten_bounds :
    (230258509299404 : ℝ) / 10 ^ 14 < Real.log 10
    ∧ Real.log 10 < (230258509299405 : ℝ) / 10 ^ 14 := by
  constructor
  · rw [Real.lt_log_iff_exp_lt (by norm_num)]
    have hz : (230258509299404 : ℝ) / 10 ^ 14
        = (4 : ℕ) * ((57564627324851 : ℝ) / 10 ^ 14) := by
      push_cast
      norm_num
    rw [hz, Real.exp_nat_mul]
    have hsand := (exp_sandwich ((57564627324851 : ℝ) / 10 ^ 14)
      (by rw [abs_le]; constructor <;> norm_num)).1
    have hT : (∑ m ∈ Finset.range 16, ((57564627324851 : ℝ) / 10 ^ 14) ^ m
        / (Nat.factorial m : ℝ)) ≤ 1.778279410038920268 := by
      norm_num [Finset.sum_range_succ, Nat.factorial]
    have hup : Real.exp ((57564627324851 : ℝ) / 10 ^ 14)
        ≤ 1.778279410038920268 + 1 / 10 ^ 16 := by linarith
    have hpow := pow_le_pow_left₀ (Real.exp_nonneg _) hup 4
    have hfin : ((1.778279410038920268 : ℝ) + 1 / 10 ^ 16) ^ 4 < 10 := by norm_num
    linarith
  · rw [Real.log_lt_iff_lt_exp (by norm_num)]
    have hz : (230258509299405 : ℝ) / 10 ^ 14
        = (4 : ℕ) * ((46051701859881 : ℝ) / 80000000000000) := by
      push_cast
      norm_num
    rw [hz, Real.exp_nat_mul]
    have hsand := (exp_sandwich ((46051701859881 : ℝ) / 80000000000000)
      (by rw [abs_le]; constructor <;> norm_num)).2
    have hT : (1.778279410038924712 : ℝ)
        ≤ ∑ m ∈ Finset.range 16, ((46051701859881 : ℝ) / 80000000000000) ^ m
          / (Nat.factorial m : ℝ) := by
      norm_num [Finset.sum_range_succ, Nat.factorial]
    have hlo : (1.778279410038924712 : ℝ) - 1 / 10 ^ 16
        ≤ Real.exp ((46051701859881 : ℝ) / 80000000000000) := by linarith
    have hpow := pow_le_pow_left₀
      (by norm_num : (0 : ℝ) ≤ 1.778279410038924712 - 1 / 10 ^ 16) hlo 4
    have hfin : (10 : ℝ) < ((1.778279410038924712 : ℝ) - 1 / 10 ^ 16) ^ 4 := by
      norm_num
    linarith

/-- The tenth root of one tenth, pinned between two neighbouring fifteen
digit rationals through its tenth power. -/
lemma tenth_root_bounds :
    (794328234724281 : ℝ) / 10 ^ 15 < (10 : ℝ) ^ (-(1 / 10) : ℝ)
    ∧ (10 : ℝ) ^ (-(1 / 10) : ℝ) < (794328234724282 : ℝ) / 10 ^ 15 := by
  have hr_pos : (0 : ℝ) < (10 : ℝ) ^ (-(1 / 10) : ℝ) :=
    Real.rpow_pos_of_pos (by norm_num) _
  have hr10 : ((10 : ℝ) ^ (-(1 / 10) : ℝ)) ^ (10 : ℕ) = 1 / 10 := by
    rw [← Real.rpow_natCast ((10 : ℝ) ^ (-(1 / 10) : ℝ)) 10,
      ← Real.rpow_mul (by norm_num : (0 : ℝ) ≤ 10)]
    norm_num
  constructor
  · refine lt_of_pow_lt_pow_left₀ 10 hr_pos.le ?_
    rw [hr10]
    norm_num
  · refine lt_of_pow_lt_pow_left₀ 10 (by norm_num) ?_
    rw [hr10]
    norm_num

/-- The mean error probability of the codes 10, 11 and 12, written with
the tenth root of one tenth, lies between the two powers of ten around
the claimed average quality. -/
lemma mean_prob_bounds :
    (10 : ℝ) ^ (-((10923583703678473 : ℝ) / 10 ^ 16) : ℝ)
      ≤ (1 + (10 : ℝ) ^ (-(1 / 10) : ℝ) + ((10 : ℝ) ^ (-(1 / 10) : ℝ)) ^ (2 : ℕ)) / 30
    ∧ (1 + (10 : ℝ) ^ (-(1 / 10) : ℝ) + ((10 : ℝ) ^ (-(1 / 10) : ℝ)) ^ (2 : ℕ)) / 30
      ≤ (10 : ℝ) ^ (-((10923583701678473 : ℝ) / 10 ^ 16) : ℝ) := by
  obtain ⟨hD1, hD2⟩ := log_ten_bounds
  obtain ⟨hra, hrb⟩ := tenth_root_bounds
  have hr_pos : (0 : ℝ) < (10 : ℝ) ^ (-(1 / 10) : ℝ) :=
    Real.rpow_pos_of_pos (by norm_num) _
  constructor
  · have hrpow : (10 : ℝ) ^ (-((10923583703678473 : ℝ) / 10 ^ 16) : ℝ)
        = Real.exp (Real.log 10 * (-((10923583703678473 : ℝ) / 10 ^ 16))) :=
      Real.rpow_def_of_pos (by norm_num) _
    have hmul : Real.log 10 * (-((10923583703678473 : ℝ) / 10 ^ 16))
        < (230258509299404 : ℝ) / 10 ^ 14 * (-((10923583703678473 : ℝ) / 10 ^ 16)) :=
      mul_lt_mul_of_neg_right hD1 (by norm_num)
    have hprod : (230258509299404 : ℝ) / 10 ^ 14 * (-((10923583703678473 : ℝ) / 10 ^ 16))
        = (4 : ℕ) * (-(628812024954066915898226632523 : ℝ) / 10 ^ 30) := by
      push_cast
      norm_num
    have hexp4 : Real.exp ((4 : ℕ) * (-(628812024954066915898226632523 : ℝ) / 10 ^ 30))
        = Real.exp (-(628812024954066915898226632523 : ℝ) / 10 ^ 30) ^ 4 :=
      Real.exp_nat_mul _ 4
    have hsand := (exp_sandwich (-(628812024954066915898226632523 : ℝ) / 10 ^ 30)
      (by rw [abs_le]; constructor <;> norm_num)).1
    have hT : (∑ m ∈ Finset.range 16,
        (-(628812024954066915898226632523 : ℝ) / 10 ^ 30) ^ m
        / (Nat.factorial m : ℝ)) ≤ 0.533224882744360107 := by
      norm_num [Finset.sum_range_succ, Nat.factorial]
    have hup : Real.exp (-(628812024954066915898226632523 : ℝ) / 10 ^ 30)
        ≤ 0.533224882744360107 + 1 / 10 ^ 16 := by linarith
    have hpow4 := pow_le_pow_left₀ (Real.exp_nonneg _) hup 4
    have hml : ((0.533224882744360107 : ℝ) + 1 / 10 ^ 16) ^ 4
        ≤ (1 + (794328234724281 : ℝ) / 10 ^ 15
            + ((794328234724281 : ℝ) / 10 ^ 15) ^ (2 : ℕ)) / 30 := by
      norm_num
    have hsq : ((794328234724281 : ℝ) / 10 ^ 15) ^ (2 : ℕ)
        ≤ ((10 : ℝ) ^ (-(1 / 10) : ℝ)) ^ (2 : ℕ) :=
      pow_le_pow_left₀ (by norm_num) hra.le 2
    have hmono : (1 + (794328234724281 : ℝ) / 10 ^ 15
          + ((794328234724281 : ℝ) / 10 ^ 15) ^ (2 : ℕ)) / 30
        ≤ (1 + (10 : ℝ) ^ (-(1 / 10) : ℝ) + ((10 : ℝ) ^ (-(1 / 10) : ℝ)) ^ (2 : ℕ)) / 30 := by
      have := hra.le
      linarith
    calc (10 : ℝ) ^ (-((10923583703678473 : ℝ) / 10 ^ 16) : ℝ)
        = Real.exp (Real.log 10 * (-((10923583703678473 : ℝ) / 10 ^ 16))) := hrpow
      _ ≤ Real.exp ((230258509299404 : ℝ) / 10 ^ 14
            * (-((10923583703678473 : ℝ) / 10 ^ 16))) := Real.exp_le_exp.mpr hmul.le
      _ = Real.exp (-(628812024954066915898226632523 : ℝ) / 10 ^ 30) ^ 4 := by
            rw [hprod, hexp4]
      _ ≤ ((0.533224882744360107 : ℝ) + 1 / 10 ^ 16) ^ 4 := hpow4
      _ ≤ (1 + (794328234724281 : ℝ) / 10 ^ 15
            + ((794328234724281 : ℝ) / 10 ^ 15) ^ (2 : ℕ)) / 30 := hml
      _ ≤ _ := hmono
  · have hrpow : (10 : ℝ) ^ (-((10923583701678473 : ℝ) / 10 ^ 16) : ℝ)
        = Real.exp (Real.log 10 * (-((10923583701678473 : ℝ) / 10 ^ 16))) :=
      Real.rpow_def_of_pos (by norm_num) _
    have hmul : (230258509299405 : ℝ) / 10 ^ 14 * (-((10923583701678473 : ℝ) / 10 ^ 16))
        < Real.log 10 * (-((10923583701678473 : ℝ) / 10 ^ 16)) :=
      mul_lt_mul_of_neg_right hD2 (by norm_num)
    have hprod : (230258509299405 : ℝ) / 10 ^ 14 * (-((10923583701678473 : ℝ) / 10 ^ 16))
        = (4 : ℕ) * (-(503049619871152313715560041713 : ℝ) / (8 * 10 ^ 29)) := by
      push_cast
      norm_num
    have hexp4 : Real.exp ((4 : ℕ)
          * (-(503049619871152313715560041713 : ℝ) / (8 * 10 ^ 29)))
        = Real.exp (-(503049619871152313715560041713 : ℝ) / (8 * 10 ^ 29)) ^ 4 :=
      Real.exp_nat_mul _ 4
    have hsand := (exp_sandwich (-(503049619871152313715560041713 : ℝ) / (8 * 10 ^ 29))
      (by rw [abs_le]; constructor <;> norm_num)).2
    have hT : (0.533224882805748433 : ℝ)
        ≤ ∑ m ∈ Finset.range 16,
            (-(503049619871152313715560041713 : ℝ) / (8 * 10 ^ 29)) ^ m
            / (Nat.factorial m : ℝ) := by
      norm_num [Finset.sum_range_succ, Nat.factorial]
    have hlo : (0.533224882805748433 : ℝ) - 1 / 10 ^ 16
        ≤ Real.exp (-(503049619871152313715560041713 : ℝ) / (8 * 10 ^ 29)) := by
      linarith
    have hpow4 := pow_le_pow_left₀
      (by norm_num : (0 : ℝ) ≤ 0.533224882805748433 - 1 / 10 ^ 16) hlo 4
    have hsq : ((10 : ℝ) ^ (-(1 / 10) : ℝ)) ^ (2 : ℕ)
        ≤ ((794328234724282 : ℝ) / 10 ^ 15) ^ (2 : ℕ) :=
      pow_le_pow_left₀ hr_pos.le hrb.le 2
    have hmu : (1 + (794328234724282 : ℝ) / 10 ^ 15
          + ((794328234724282 : ℝ) / 10 ^ 15) ^ (2 : ℕ)) / 30
        ≤ ((0.533224882805748433 : ℝ) - 1 / 10 ^ 16) ^ 4 := by
      norm_num
    have hmono : (1 + (10 : ℝ) ^ (-(1 / 10) : ℝ)
          + ((10 : ℝ) ^ (-(1 / 10) : ℝ)) ^ (2 : ℕ)) / 30
        ≤ (1 + (794328234724282 : ℝ) / 10 ^ 15
            + ((794328234724282 : ℝ) / 10 ^ 15) ^ (2 : ℕ)) / 30 := by
      have := hrb.le
      linarith
    calc (1 + (10 : ℝ) ^ (-(1 / 10) : ℝ) + ((10 : ℝ) ^ (-(1 / 10) : ℝ)) ^ (2 : ℕ)) / 30
        ≤ (1 + (794328234724282 : ℝ) / 10 ^ 15
            + ((794328234724282 : ℝ) / 10 ^ 15) ^ (2 : ℕ)) / 30 := hmono
      _ ≤ ((0.533224882805748433 : ℝ) - 1 / 10 ^ 16) ^ 4 := hmu
      _ ≤ Real.exp (-(503049619871152313715560041713 : ℝ) / (8 * 10 ^ 29)) ^ 4 := hpow4
      _ = Real.exp ((230258509299405 : ℝ) / 10 ^ 14
            * (-((10923583701678473 : ℝ) / 10 ^ 16))) := by rw [hprod, hexp4]
      _ ≤ Real.exp (Real.log 10 * (-((10923583701678473 : ℝ) / 10 ^ 16))) :=
            Real.exp_le_exp.mpr hmul.le
      _ = (10 : ℝ) ^ (-((10923583701678473 : ℝ) / 10 ^ 16) : ℝ) := hrpow.symm

/-- C3: ave_qual averages in probability space and not arithmetically:
on the single code 10 it is exactly 10; on the codes 10, 11, 12 it lies
within 1e-9 of 10.923583702678473; in particular it differs from the
arithmetic mean 11 of the codes. -/
theorem ave_qual_probability_space :
    ave_qual [10] = 10
    ∧ |ave_qual [10, 11, 12] - 10.923583702678473| ≤ 1e-9
    ∧ ave_qual [10, 11, 12] ≠ (10 + 11 + 12) / 3 := by
  have h1 : ave_qual [10] = 10 := by
    unfold ave_qual
    have hmap : ([10] : List ℕ).map (fun q : ℕ => (10 : ℝ) ^ ((q : ℝ) / (-10)))
        = [(10 : ℝ) ^ (-1 : ℝ)] := by norm_num
    rw [hmap]
    rw [show ([(10 : ℝ) ^ (-1 : ℝ)]).sum = (10 : ℝ) ^ (-1 : ℝ) from by simp]
    rw [show (([10] : List ℕ).length : ℝ) = 1 from by norm_num, div_one]
    rw [Real.logb_rpow (by norm_num) (by norm_num)]
    norm_num
  have hval : ave_qual [10, 11, 12]
      = Real.logb 10 ((1 + (10 : ℝ) ^ (-(1 / 10) : ℝ)
          + ((10 : ℝ) ^ (-(1 / 10) : ℝ)) ^ (2 : ℕ)) / 30) * (-10) := by
    unfold ave_qual
    have hmap : ([10, 11, 12] : List ℕ).map (fun q : ℕ => (10 : ℝ) ^ ((q : ℝ) / (-10)))
        = [(10 : ℝ) ^ (-1 : ℝ), (10 : ℝ) ^ (-(11 / 10) : ℝ), (10 : ℝ) ^ (-(6 / 5) : ℝ)] := by
      norm_num
    rw [hmap]
    have hsum : ([(10 : ℝ) ^ (-1 : ℝ), (10 : ℝ) ^ (-(11 / 10) : ℝ),
        (10 : ℝ) ^ (-(6 / 5) : ℝ)]).sum
        = (10 : ℝ) ^ (-1 : ℝ) + ((10 : ℝ) ^ (-(11 / 10) : ℝ)
            + (10 : ℝ) ^ (-(6 / 5) : ℝ)) := by
      simp
    rw [hsum]
    have hsplit11 : (10 : ℝ) ^ (-(11 / 10) : ℝ)
        = (10 : ℝ) ^ (-1 : ℝ) * (10 : ℝ) ^ (-(1 / 10) : ℝ) := by
      rw [← Real.rpow_add (by norm_num : (0 : ℝ) < 10)]
      norm_num
    have hsplit12 : (10 : ℝ) ^ (-(6 / 5) : ℝ)
        = (10 : ℝ) ^ (-1 : ℝ) * ((10 : ℝ) ^ (-(1 / 10) : ℝ)) ^ (2 : ℕ) := by
      rw [← Real.rpow_natCast ((10 : ℝ) ^ (-(1 / 10) : ℝ)) 2,
        ← Real.rpow_mul (by norm_num : (0 : ℝ) ≤ 10),
        ← Real.rpow_add (by norm_num : (0 : ℝ) < 10)]
      norm_num
    have hneg1 : (10 : ℝ) ^ (-1 : ℝ) = 1 / 10 := by
      rw [Real.rpow_neg_one]
      norm_num
    rw [hsplit11, hsplit12, hneg1]
    have hlen : (([10, 11, 12] : List ℕ).length : ℝ) = 3 := by norm_num
    rw [hlen]
    have harg : (1 / 10 + (1 / 10 * (10 : ℝ) ^ (-(1 / 10) : ℝ)
          + 1 / 10 * ((10 : ℝ) ^ (-(1 / 10) : ℝ)) ^ (2 : ℕ))) / 3
        = (1 + (10 : ℝ) ^ (-(1 / 10) : ℝ)
            + ((10 : ℝ) ^ (-(1 / 10) : ℝ)) ^ (2 : ℕ)) / 30 := by
      ring
    rw [harg]
  have hr_pos : (0 : ℝ) < (10 : ℝ) ^ (-(1 / 10) : ℝ) :=
    Real.rpow_pos_of_pos (by norm_num) _
  have hm_pos : (0 : ℝ) < (1 + (10 : ℝ) ^ (-(1 / 10) : ℝ)
      + ((10 : ℝ) ^ (-(1 / 10) : ℝ)) ^ (2 : ℕ)) / 30 := by positivity
  obtain ⟨hge, hle⟩ := mean_prob_bounds
  have hlogb_ge : -((10923583703678473 : ℝ) / 10 ^ 16)
      ≤ Real.logb 10 ((1 + (10 : ℝ) ^ (-(1 / 10) : ℝ)
          + ((10 : ℝ) ^ (-(1 / 10) : ℝ)) ^ (2 : ℕ)) / 30) :=
    (Real.le_logb_iff_rpow_le (by norm_num) hm_pos).mpr hge
  have hlogb_le : Real.logb 10 ((1 + (10 : ℝ) ^ (-(1 / 10) : ℝ)
        + ((10 : ℝ) ^ (-(1 / 10) : ℝ)) ^ (2 : ℕ)) / 30)
      ≤ -((10923583701678473 : ℝ) / 10 ^ 16) :=
    (Real.logb_le_iff_le_rpow (by norm_num) hm_pos).mpr hle
  have h2 : |ave_qual [10, 11, 12] - 10.923583702678473| ≤ 1e-9 := by
    rw [hval, abs_le]
    constructor <;> nlinarith [hlogb_ge, hlogb_le]
  refine ⟨h1, h2, ?_⟩
  have hlt : ave_qual [10, 11, 12] < 11 := by
    have hub := (abs_le.mp h2).2
    have : (10.923583702678473 : ℝ) + 1e-9 < 11 := by norm_num
    linarith
  intro heq
  rw [heq] at hlt
  norm_num at hlt

end Chopper
